import Mathlib

/-!
Shallow embedding of the IntroPsych pipeline (src/cleaning.py, src/scoring.py,
src/stats.py) and verification of the frozen claims about it.

Data frames are modelled as ordered association lists of named columns; a cell
is either a (rational) number, a string, or missing (pandas NaN / NaT).  A raw
spreadsheet cell whose text parses as a number is represented directly as a
numeric cell, so `pd.to_numeric(-, errors="coerce")` becomes `Cell.toNum`.
Python floats are modelled by `ℚ` (the pipeline only ever produces rationals
from rational inputs); `NaN` is modelled by `Cell.missing` / `Option`.
-/

set_option autoImplicit false
set_option maxRecDepth 8000

namespace IntroPsych

/-- A single table cell: a number, a string, or missing (NaN). -/
inductive Cell where
  | num (q : ℚ)
  | str (s : String)
  | missing
  deriving DecidableEq, Repr

/-- `pd.to_numeric(-, errors="coerce")` on one cell: numbers survive,
everything else coerces to missing. -/
def Cell.toNum : Cell → Option ℚ
  | Cell.num q => some q
  | _ => none

/-- Render a cell as text (`astype(str)`); the exact text is never
claim-relevant. -/
def Cell.toStr : Cell → String
  | Cell.num q => toString q
  | Cell.str s => s
  | Cell.missing => "nan"

/-- A data frame: ordered list of named columns (pandas column order is
significant for the claims about persisted column order). -/
structure Frame where
  cols : List (String × List Cell)
  deriving DecidableEq, Repr

/-- Look a column up by name (first match, like a pandas column access). -/
def getColAux (nm : String) : List (String × List Cell) → Option (List Cell)
  | [] => none
  | (k, v) :: rest => if k = nm then some v else getColAux nm rest

def Frame.getCol (f : Frame) (nm : String) : Option (List Cell) :=
  getColAux nm f.cols

/-- Column access where the pipeline guarantees presence (`df[nm]`); the
KeyError path for an absent name is never exercised by the modelled calls. -/
def Frame.col (f : Frame) (nm : String) : List Cell :=
  (f.getCol nm).getD []

/-- `df[nm] = v`: replace the column in place when the name exists, otherwise
append it on the right (pandas assignment semantics). -/
def setColAux (nm : String) (v : List Cell) : List (String × List Cell) →
    List (String × List Cell)
  | [] => [(nm, v)]
  | (k, w) :: rest =>
      if k = nm then (nm, v) :: rest else (k, w) :: setColAux nm v rest

def Frame.setCol (f : Frame) (nm : String) (v : List Cell) : Frame :=
  ⟨setColAux nm v f.cols⟩

def Frame.colNames (f : Frame) : List String :=
  f.cols.map Prod.fst

/-- Number of rows (length of the leftmost column; frames are rectangular). -/
def Frame.nrows (f : Frame) : ℕ :=
  match f.cols with
  | [] => 0
  | c :: _ => c.2.length

/-- Keep the rows whose mask entry is `true` (`df[mask]`). -/
def maskFilter (mask : List Bool) (xs : List Cell) : List Cell :=
  ((xs.zip mask).filter (fun p => p.2)).map Prod.fst

def Frame.filterRows (f : Frame) (mask : List Bool) : Frame :=
  ⟨f.cols.map (fun c => (c.1, maskFilter mask c.2))⟩

/-! ### Basic frame lemmas -/

theorem getColAux_setColAux_same (nm : String) (v : List Cell)
    (l : List (String × List Cell)) :
    getColAux nm (setColAux nm v l) = some v := by
  induction l with
  | nil => simp [setColAux, getColAux]
  | cons c rest ih =>
      obtain ⟨k, w⟩ := c
      by_cases h : k = nm <;> simp [setColAux, getColAux, h, ih]

theorem getColAux_setColAux_other {nm nm' : String} (h : nm' ≠ nm)
    (v : List Cell) (l : List (String × List Cell)) :
    getColAux nm' (setColAux nm v l) = getColAux nm' l := by
  induction l with
  | nil =>
      simp only [setColAux, getColAux]
      rw [if_neg (fun hh => h hh.symm)]
  | cons c rest ih =>
      obtain ⟨k, w⟩ := c
      by_cases hk : k = nm
      · subst hk
        simp only [setColAux, if_pos rfl, getColAux]
        rw [if_neg (fun hh : k = nm' => h hh.symm),
          if_neg (fun hh : k = nm' => h hh.symm)]
      · simp only [setColAux, if_neg hk, getColAux, ih]

theorem Frame.getCol_setCol_same (f : Frame) (nm : String) (v : List Cell) :
    (f.setCol nm v).getCol nm = some v :=
  getColAux_setColAux_same nm v f.cols

theorem Frame.getCol_setCol_other (f : Frame) {nm nm' : String}
    (h : nm' ≠ nm) (v : List Cell) :
    (f.setCol nm v).getCol nm' = f.getCol nm' :=
  getColAux_setColAux_other h v f.cols

theorem Frame.col_setCol_same (f : Frame) (nm : String) (v : List Cell) :
    (f.setCol nm v).col nm = v := by
  simp [Frame.col, Frame.getCol_setCol_same]

/-- Insert-or-replace on the name level: what one column assignment does to
the ordered list of column names. -/
def insertName (names : List String) (nm : String) : List String :=
  if nm ∈ names then names else names ++ [nm]

theorem setColAux_names (nm : String) (v : List Cell)
    (l : List (String × List Cell)) :
    (setColAux nm v l).map Prod.fst = insertName (l.map Prod.fst) nm := by
  induction l with
  | nil => simp [setColAux, insertName]
  | cons c rest ih =>
      obtain ⟨k, w⟩ := c
      by_cases h : k = nm
      · subst h
        simp [setColAux, insertName]
      · have hne : nm ≠ k := fun hh => h hh.symm
        simp only [setColAux, if_neg h, List.map_cons, ih, insertName,
          List.mem_cons, hne, false_or]
        by_cases hm : nm ∈ rest.map Prod.fst <;> simp [hm]

theorem Frame.colNames_setCol (f : Frame) (nm : String) (v : List Cell) :
    (f.setCol nm v).colNames = insertName f.colNames nm :=
  setColAux_names nm v f.cols

/-! ### src/scoring.py -/

/-- `confidence_to_prob`, pointwise: map confidence 1–7 to probability 0–1,
`(conf - 1) / 6`.  The source applies this elementwise over a series. -/
def confidence_to_prob (conf : ℚ) : ℚ :=
  (conf - 1) / 6

/-- `abs_for_question`, pointwise: `ABS = (1 - (p - y)^2) + 0.5*y`. -/
def abs_for_question (p y : ℚ) : ℚ :=
  (1 - (p - y) ^ 2) + (1/2) * y

/-- `cws_for_question`, pointwise:
correct part `0.6 + 0.4 p`, wrong part `0.4 - 0.4 p`,
result `y * correct_part + (1 - y) * wrong_part`. -/
def cws_for_question (p y : ℚ) : ℚ :=
  let correct_part := 6/10 + 4/10 * p
  let wrong_part := 4/10 - 4/10 * p
  y * correct_part + (1 - y) * wrong_part

/-- Elementwise unary arithmetic on a series; NaN propagates (pandas). -/
def seriesMap1 (g : ℚ → ℚ) (xs : List Cell) : List Cell :=
  xs.map (fun c =>
    match c.toNum with
    | some a => Cell.num (g a)
    | none => Cell.missing)

/-- Elementwise binary arithmetic on two aligned series; a missing operand
yields a missing result for that row only (pandas NaN propagation). -/
def seriesMap2 (g : ℚ → ℚ → ℚ) (xs ys : List Cell) : List Cell :=
  (xs.zip ys).map (fun c =>
    match c.1.toNum, c.2.toNum with
    | some a, some b => Cell.num (g a b)
    | _, _ => Cell.missing)

/-- One iteration of the `add_question_scores` loop body for question `i`:
assign `p_i`, then `abs_i` (if enabled), then `cws_i` (if enabled). -/
def questionStep (use_abs use_cws : Bool) (df : Frame) (i : ℕ) : Frame :=
  let conf_col := "conf_" ++ toString i
  let y_col := "correct_" ++ toString i
  let p_col := "p_" ++ toString i
  let df1 := df.setCol p_col (seriesMap1 confidence_to_prob (df.col conf_col))
  let df2 :=
    if use_abs then
      df1.setCol ("abs_" ++ toString i)
        (seriesMap2 abs_for_question (df1.col p_col) (df1.col y_col))
    else df1
  if use_cws then
    df2.setCol ("cws_" ++ toString i)
      (seriesMap2 cws_for_question (df2.col p_col) (df2.col y_col))
  else df2

/-- `add_question_scores`: loop `i = 1 .. n_questions` over `questionStep`. -/
def add_question_scores (df : Frame) (n_questions : ℕ)
    (use_abs use_cws : Bool) : Frame :=
  (List.range' 1 n_questions).foldl (questionStep use_abs use_cws) df

/-- Missing-skipping sum of the cells of one row (`DataFrame.sum(axis=1)`
default semantics: an all-missing row sums to 0). -/
def sumSkip (cs : List Cell) : ℚ :=
  (cs.filterMap Cell.toNum).sum

/-- Missing-skipping mean of the cells of one row (`DataFrame.mean(axis=1)`:
an all-missing row has a missing mean). -/
def meanSkip (cs : List Cell) : Cell :=
  let xs := cs.filterMap Cell.toNum
  if xs.length = 0 then Cell.missing else Cell.num (xs.sum / xs.length)

/-- The cells of row `j` across the named columns. -/
def rowCells (colsVals : List (List Cell)) (j : ℕ) : List Cell :=
  colsVals.map (fun col => col.getD j Cell.missing)

/-- `df[names].sum(axis=1)` as a new column. -/
def rowSums (f : Frame) (names : List String) : List Cell :=
  let colsVals := names.map f.col
  (List.range f.nrows).map (fun j => Cell.num (sumSkip (rowCells colsVals j)))

/-- `df[names].mean(axis=1)` as a new column. -/
def rowMeans (f : Frame) (names : List String) : List Cell :=
  let colsVals := names.map f.col
  (List.range f.nrows).map (fun j => meanSkip (rowCells colsVals j))

/-- Elementwise division of a column by the integer `n_questions`
(`df["total_correct"] / n_questions`). -/
def divCellNat (n : ℕ) (c : Cell) : Cell :=
  match c.toNum with
  | some q => Cell.num (q / (n : ℚ))
  | none => Cell.missing

/-- `add_summary_scores`: `total_correct` (missing-skipping row sum of the
`correct_i`), `accuracy = total_correct / n_questions`, `mean_conf`
(missing-skipping row mean of the `conf_i`), then `total_abs` / `total_cws`
row sums when enabled.  Assignments happen in this order. -/
def add_summary_scores (df : Frame) (n_questions : ℕ)
    (use_abs use_cws : Bool) : Frame :=
  let correct_cols :=
    (List.range' 1 n_questions).map (fun i => "correct_" ++ toString i)
  let conf_cols :=
    (List.range' 1 n_questions).map (fun i => "conf_" ++ toString i)
  let df1 := df.setCol "total_correct" (rowSums df correct_cols)
  let df2 := df1.setCol "accuracy"
    ((df1.col "total_correct").map (divCellNat n_questions))
  let df3 := df2.setCol "mean_conf" (rowMeans df2 conf_cols)
  let df4 :=
    if use_abs then
      df3.setCol "total_abs"
        (rowSums df3 ((List.range' 1 n_questions).map
          (fun i => "abs_" ++ toString i)))
    else df3
  if use_cws then
    df4.setCol "total_cws"
      (rowSums df4 ((List.range' 1 n_questions).map
        (fun i => "cws_" ++ toString i)))
  else df4

/-! ### Column-name images of the scoring passes -/

/-- What `questionStep` does to the ordered list of column names. -/
def questionStepNames (use_abs use_cws : Bool) (names : List String)
    (i : ℕ) : List String :=
  let names1 := insertName names ("p_" ++ toString i)
  let names2 :=
    if use_abs then insertName names1 ("abs_" ++ toString i) else names1
  if use_cws then insertName names2 ("cws_" ++ toString i) else names2

def add_question_names (names : List String) (n : ℕ)
    (use_abs use_cws : Bool) : List String :=
  (List.range' 1 n).foldl (questionStepNames use_abs use_cws) names

def add_summary_names (names : List String) (use_abs use_cws : Bool) :
    List String :=
  let n1 := insertName names "total_correct"
  let n2 := insertName n1 "accuracy"
  let n3 := insertName n2 "mean_conf"
  let n4 := if use_abs then insertName n3 "total_abs" else n3
  if use_cws then insertName n4 "total_cws" else n4

theorem colNames_questionStep (ua uc : Bool) (df : Frame) (i : ℕ) :
    (questionStep ua uc df i).colNames =
      questionStepNames ua uc df.colNames i := by
  unfold questionStep questionStepNames
  cases ua <;> cases uc <;> simp [Frame.colNames_setCol]

theorem colNames_foldl_questionStep (ua uc : Bool) :
    ∀ (l : List ℕ) (df : Frame),
      (l.foldl (questionStep ua uc) df).colNames =
        l.foldl (questionStepNames ua uc) df.colNames
  | [], _ => rfl
  | i :: rest, df => by
      rw [List.foldl_cons, List.foldl_cons,
        colNames_foldl_questionStep ua uc rest, colNames_questionStep]

theorem colNames_add_question_scores (df : Frame) (n : ℕ) (ua uc : Bool) :
    (add_question_scores df n ua uc).colNames =
      add_question_names df.colNames n ua uc :=
  colNames_foldl_questionStep ua uc (List.range' 1 n) df

theorem colNames_add_summary_scores (df : Frame) (n : ℕ) (ua uc : Bool) :
    (add_summary_scores df n ua uc).colNames =
      add_summary_names df.colNames ua uc := by
  unfold add_summary_scores add_summary_names
  cases ua <;> cases uc <;> simp [Frame.colNames_setCol]

/-! ### Preservation of pre-existing columns by the scoring passes -/

theorem getCol_questionStep (ua uc : Bool) (df : Frame) (i : ℕ) {nm : String}
    (hp : nm ≠ "p_" ++ toString i) (ha : nm ≠ "abs_" ++ toString i)
    (hc : nm ≠ "cws_" ++ toString i) :
    (questionStep ua uc df i).getCol nm = df.getCol nm := by
  unfold questionStep
  cases ua <;> cases uc <;>
    simp only [if_true, if_false, Bool.false_eq_true, ite_false, ite_true,
      Frame.getCol_setCol_other _ hp, Frame.getCol_setCol_other _ ha,
      Frame.getCol_setCol_other _ hc]

theorem getCol_foldl_questionStep (ua uc : Bool) {nm : String} :
    ∀ (l : List ℕ) (df : Frame),
      (∀ i ∈ l, nm ≠ "p_" ++ toString i ∧ nm ≠ "abs_" ++ toString i ∧
        nm ≠ "cws_" ++ toString i) →
      (l.foldl (questionStep ua uc) df).getCol nm = df.getCol nm
  | [], _, _ => rfl
  | i :: rest, df, h => by
      have hi := h i (List.mem_cons_self i rest)
      rw [List.foldl_cons,
        getCol_foldl_questionStep ua uc rest _
          (fun j hj => h j (List.mem_cons_of_mem _ hj)),
        getCol_questionStep ua uc df i hi.1 hi.2.1 hi.2.2]

theorem getCol_add_question_scores (df : Frame) (n : ℕ) (ua uc : Bool)
    {nm : String}
    (h : ∀ i, 1 ≤ i → i ≤ n → nm ≠ "p_" ++ toString i ∧
      nm ≠ "abs_" ++ toString i ∧ nm ≠ "cws_" ++ toString i) :
    (add_question_scores df n ua uc).getCol nm = df.getCol nm := by
  refine getCol_foldl_questionStep ua uc (List.range' 1 n) df ?_
  intro i hi
  rw [List.mem_range'_1] at hi
  exact h i hi.1 (by omega)

theorem getCol_add_summary_scores (df : Frame) (n : ℕ) (ua uc : Bool)
    {nm : String} (h1 : nm ≠ "total_correct") (h2 : nm ≠ "accuracy")
    (h3 : nm ≠ "mean_conf") (h4 : nm ≠ "total_abs") (h5 : nm ≠ "total_cws") :
    (add_summary_scores df n ua uc).getCol nm = df.getCol nm := by
  unfold add_summary_scores
  cases ua <;> cases uc <;>
    simp only [if_true, if_false, Bool.false_eq_true, ite_false, ite_true,
      Frame.getCol_setCol_other _ h1, Frame.getCol_setCol_other _ h2,
      Frame.getCol_setCol_other _ h3, Frame.getCol_setCol_other _ h4,
      Frame.getCol_setCol_other _ h5]

/-! ### src/cleaning.py -/

/-- `pat in s`: `pat` occurs as a contiguous substring of `s`. -/
def strContains (s pat : String) : Bool :=
  s.data.tails.any (fun t => pat.data.isPrefixOf t)

/-- `s.endswith(post)`, on the character lists. -/
def strEndsWith (s post : String) : Bool :=
  post.data.isSuffixOf s.data

/-- `s.startswith(pre)`, on the character lists. -/
def strStartsWith (s pre : String) : Bool :=
  pre.data.isPrefixOf s.data

/-- Numeric coercion of a whole column
(`pd.to_numeric(-, errors="coerce")`). -/
def coerceNum (xs : List Cell) : List Cell :=
  xs.map (fun c =>
    match c.toNum with
    | some q => Cell.num q
    | none => Cell.missing)

/-- The `correct_i` / `conf_i` columns built from the zipped score/confidence
column pairs, numbering from `i` (`enumerate(zip(score_cols, conf_cols),
start=1)`). -/
def pairData (dff : Frame) : List (String × String) → ℕ →
    List (String × List Cell)
  | [], _ => []
  | (sc, cc) :: rest, i =>
      ("correct_" ++ toString i, coerceNum (dff.col sc)) ::
      ("conf_" ++ toString i, coerceNum (dff.col cc)) ::
      pairData dff rest (i + 1)

/-- Helper for `df[cols_order]`: gather the named columns in order, `none`
when some name is absent. -/
def selectColsAux (f : Frame) : List String →
    Option (List (String × List Cell))
  | [] => some []
  | nm :: rest =>
      match f.getCol nm, selectColsAux f rest with
      | some v, some cs => some ((nm, v) :: cs)
      | _, _ => none

/-- `df[cols_order]`: reindex to the named columns in the given order; pandas
raises `KeyError` when a requested column is absent. -/
def selectCols (f : Frame) (names : List String) : Except String Frame :=
  match selectColsAux f names with
  | some cs => Except.ok ⟨cs⟩
  | none => Except.error "KeyError: columns not in index"

/-- Participant name resolution: first column containing the phrase
`What is your name`, else `Timestamp` rendered as text, else a synthetic
1-based index. -/
def participantCol (dff : Frame) : List Cell :=
  match (dff.colNames.filter
      (fun c => strContains c "What is your name")).head? with
  | some c => dff.col c
  | none =>
      if "Timestamp" ∈ dff.colNames then
        (dff.col "Timestamp").map (fun c => Cell.str c.toStr)
      else
        (List.range' 1 dff.nrows).map (fun i => Cell.num (i : ℚ))

/-- The column order of the tidy table. -/
def tidyOrder (n : ℕ) : List String :=
  ["participant", "group"] ++
  (List.range' 1 n).map (fun i => "correct_" ++ toString i) ++
  (List.range' 1 n).map (fun i => "conf_" ++ toString i)

/-- `tidy_columns`.  The printed warnings are returned as a list instead of
going to stdout; a Python exception is an `Except.error`
(`IndexError` from `score_cols[0]` on an empty list, `KeyError` from
`clean_df[cols_order]` when a requested `correct_i`/`conf_i` was never
built).  `sorted(-, key=cols.index)` in the source re-sorts the matched
names by original position, which is a no-op because `filter` already
preserves the original column order. -/
def tidy_columns (df : Frame) (n_questions : ℕ) :
    Except String (List String × Frame) :=
  let score_cols := df.colNames.filter (fun c => strEndsWith c "[Score]")
  let conf_cols :=
    df.colNames.filter (fun c => strStartsWith c "How confident")
  let warnings :=
    (if score_cols.length ≠ n_questions
      then ["WARNING: unexpected number of score columns"] else []) ++
    (if conf_cols.length ≠ n_questions
      then ["WARNING: unexpected number of confidence columns"] else [])
  match score_cols with
  | [] => Except.error "IndexError: list index out of range"
  | first_score_col :: _ =>
      let mask := (df.col first_score_col).map (fun c => c.toNum.isSome)
      let dff := df.filterRows mask
      let data : Frame :=
        ⟨("participant", participantCol dff) ::
          ("group", dff.col "group") ::
          pairData dff (score_cols.zip conf_cols) 1⟩
      match selectCols data (tidyOrder n_questions) with
      | Except.ok clean_df => Except.ok (warnings, clean_df)
      | Except.error e => Except.error e

/-! ### src/stats.py -/

/-- Sample mean; `none` for an empty list (pandas mean of an empty series is
NaN). -/
def meanQ (xs : List ℚ) : Option ℚ :=
  if xs.length = 0 then none else some (xs.sum / (xs.length : ℚ))

/-- Bessel-corrected sample variance, the square of `Series.std(ddof=1)`;
`none` when fewer than two observations (pandas std of 0 or 1 values is
NaN). -/
def varSample (xs : List ℚ) : Option ℚ :=
  if xs.length < 2 then none
  else
    let n : ℚ := xs.length
    let m := xs.sum / n
    some ((xs.map (fun x => (x - m) ^ 2)).sum / (n - 1))

/-- One row of the `group_descriptives` table.  The variance is stored; the
frame's `sd` / `se` entries are recovered by `GDRow.sd` / `GDRow.se` below
(real-valued, since square roots leave `ℚ`). -/
structure GDRow where
  group : Cell
  n : ℕ
  mean : Option ℚ
  var : Option ℚ
  deriving DecidableEq, Repr

/-- `x.std(ddof=1)`: square root of the sample variance (NaN when `n < 2`). -/
noncomputable def GDRow.sd (r : GDRow) : Option ℝ :=
  r.var.map (fun v => Real.sqrt (v : ℝ))

/-- `x.std(ddof=1) / np.sqrt(n) if n > 0 else np.nan`. -/
noncomputable def GDRow.se (r : GDRow) : Option ℝ :=
  if r.n = 0 then none
  else r.sd.map (fun s => s / Real.sqrt (r.n : ℝ))

/-- Distinct cells of a column in first-appearance order.  `df.groupby`
sorts the group keys; for the group labels used here ("CG" < "EG")
first-appearance and sorted order coincide, and no claim depends on the
ordering of the descriptives rows. -/
def dedupCells (xs : List Cell) : List Cell :=
  xs.foldl (fun acc c => if c ∈ acc then acc else acc ++ [c]) []

/-- `sub[dv].dropna()` for the partition of rows whose `group_col` cell is
`g`: the non-missing `dv` values, in row order. -/
def groupValues (f : Frame) (dv group_col : String) (g : Cell) : List ℚ :=
  ((f.col group_col).zip (f.col dv)).filterMap
    (fun c => if c.1 = g then c.2.toNum else none)

/-- The descriptives record for one group partition (`xs` already has missing
values dropped). -/
def descRow (g : Cell) (xs : List ℚ) : GDRow :=
  { group := g, n := xs.length, mean := meanQ xs, var := varSample xs }

/-- `group_descriptives`: one descriptives row per group value. -/
def group_descriptives (f : Frame) (dv group_col : String) : List GDRow :=
  (dedupCells (f.col group_col)).map
    (fun g => descRow g (groupValues f dv group_col g))

/-- The structured result of `independent_t` (the returned dict). -/
structure TResult where
  dv : String
  group1 : String
  group2 : String
  mean1 : Option ℚ
  mean2 : Option ℚ
  t : Option ℝ
  p : Option ℝ
  cohens_d : Option ℝ
  n1 : ℕ
  n2 : ℕ

/-- Welch–Satterthwaite degrees of freedom, as used internally by
`scipy.stats.ttest_ind(equal_var=False)` to locate the t distribution. -/
def welchDF (v1 : ℚ) (n1 : ℕ) (v2 : ℚ) (n2 : ℕ) : ℚ :=
  let a := v1 / (n1 : ℚ)
  let b := v2 / (n2 : ℚ)
  (a + b) ^ 2 / (a ^ 2 / ((n1 : ℚ) - 1) + b ^ 2 / ((n2 : ℚ) - 1))

/-- `independent_t`.  The parameter `sf` abstracts the single external
numeric collaborator: scipy's two-tailed tail-probability map
`(|t|, df) ↦ p` of the Student t distribution; no claim constrains its
values.  `t`, `p` and `cohens_d` are `none` exactly where scipy/numpy
produce a non-finite float: an undefined sample standard deviation
(group smaller than 2) gives NaN, and a zero denominator gives NaN/inf. -/
noncomputable def independent_t (sf : ℝ → ℚ → ℝ) (df : Frame) (dv : String)
    (group_col g1 g2 : String) : TResult :=
  let x1 := groupValues df dv group_col (Cell.str g1)
  let x2 := groupValues df dv group_col (Cell.str g2)
  let n1 := x1.length
  let n2 := x2.length
  let t : Option ℝ :=
    match varSample x1, varSample x2 with
    | some v1, some v2 =>
        let denom := v1 / (n1 : ℚ) + v2 / (n2 : ℚ)
        if 0 < denom then
          some (((x1.sum / (n1 : ℚ) - x2.sum / (n2 : ℚ) : ℚ) : ℝ) /
            Real.sqrt ((denom : ℚ) : ℝ))
        else none
    | _, _ => none
  let p : Option ℝ :=
    match varSample x1, varSample x2 with
    | some v1, some v2 => t.map (fun tv => sf |tv| (welchDF v1 n1 v2 n2))
    | _, _ => none
  let cohens_d : Option ℝ :=
    match varSample x1, varSample x2 with
    | some v1, some v2 =>
        let pooled_var := (((n1 : ℚ) - 1) * v1 + ((n2 : ℚ) - 1) * v2) /
          ((n1 : ℚ) + (n2 : ℚ) - 2)
        if 0 < pooled_var then
          some (((x1.sum / (n1 : ℚ) - x2.sum / (n2 : ℚ) : ℚ) : ℝ) /
            Real.sqrt ((pooled_var : ℚ) : ℝ))
        else none
    | _, _ => none
  { dv := dv, group1 := g1, group2 := g2,
    mean1 := meanQ x1, mean2 := meanQ x2,
    t := t, p := p, cohens_d := cohens_d, n1 := n1, n2 := n2 }

/-! ### Concrete frames used by individual claims -/

/-- Raw input with a score cell outside {0,1} (the value 2). -/
def c10raw : Frame :=
  ⟨[("Q1 [Score]", [Cell.num 2]),
    ("How confident are you", [Cell.num 7]),
    ("group", [Cell.str "CG"])]⟩

/-- The tidy table `tidy_columns` produces from `c10raw`. -/
def c10tidy : Frame :=
  ⟨[("participant", [Cell.num 1]), ("group", [Cell.str "CG"]),
    ("correct_1", [Cell.num 2]), ("conf_1", [Cell.num 7])]⟩

/-- A summary table whose CG group has a single observation. -/
def c2frame : Frame :=
  ⟨[("group", [Cell.str "CG", Cell.str "EG", Cell.str "EG"]),
    ("total_cws", [Cell.num 5, Cell.num 3, Cell.num 4])]⟩

/-- Single-row tidy table with every `correct_i` and `conf_i` missing. -/
def c6missing : Frame :=
  ⟨[("participant", [Cell.str "p1"]), ("group", [Cell.str "CG"])] ++
    (List.range' 1 20).map
      (fun i => ("correct_" ++ toString i, [Cell.missing])) ++
    (List.range' 1 20).map
      (fun i => ("conf_" ++ toString i, [Cell.missing]))⟩

/-- Single-row tidy table with all twenty `correct_i = 1`. -/
def c6ones : Frame :=
  ⟨[("participant", [Cell.str "p2"]), ("group", [Cell.str "EG"])] ++
    (List.range' 1 20).map
      (fun i => ("correct_" ++ toString i, [Cell.num 1])) ++
    (List.range' 1 20).map
      (fun i => ("conf_" ++ toString i, [Cell.num 4]))⟩

/-! ### Claim theorems -/

/-- C5: `confidence_to_prob` is the linear map `p = (conf - 1)/6` on every
rational input, with no clamping: `f 1 = 0`, `f 4 = 1/2`, `f 7 = 1`,
`f (conf + 6) - f conf = 1` for any `conf`, and out-of-range inputs
extrapolate linearly (`f 13 = 2`, `f (-5) = -1`). -/
theorem confidence_to_prob_linear :
    confidence_to_prob 1 = 0 ∧ confidence_to_prob 4 = 1/2 ∧
    confidence_to_prob 7 = 1 ∧
    (∀ conf : ℚ, confidence_to_prob conf = (conf - 1) / 6) ∧
    (∀ conf : ℚ,
      confidence_to_prob (conf + 6) - confidence_to_prob conf = 1) ∧
    confidence_to_prob 13 = 2 ∧ confidence_to_prob (-5) = -1 := by
  refine ⟨by norm_num [confidence_to_prob], by norm_num [confidence_to_prob],
    by norm_num [confidence_to_prob], fun conf => rfl, fun conf => ?_,
    by norm_num [confidence_to_prob], by norm_num [confidence_to_prob]⟩
  unfold confidence_to_prob
  ring

/-- C4: `cws_for_question` computes `y*(0.6+0.4p) + (1-y)*(0.4-0.4p)`; the
corner values are `CWS(1,1)=1 > CWS(0,1)=0.6 > CWS(0,0)=0.4 > CWS(1,0)=0`,
and for all `p, q ∈ [0,1]` every correct-answer score exceeds every
wrong-answer score: `CWS(p,1) > CWS(q,0)`. -/
theorem cws_ordering (p q : ℚ) (hp0 : 0 ≤ p) (hp1 : p ≤ 1)
    (hq0 : 0 ≤ q) (hq1 : q ≤ 1) :
    (∀ r y : ℚ, cws_for_question r y =
      y * (6/10 + 4/10 * r) + (1 - y) * (4/10 - 4/10 * r)) ∧
    cws_for_question 1 1 = 1 ∧ cws_for_question 0 1 = 6/10 ∧
    cws_for_question 0 0 = 4/10 ∧ cws_for_question 1 0 = 0 ∧
    cws_for_question 1 1 > cws_for_question 0 1 ∧
    cws_for_question 0 1 > cws_for_question 0 0 ∧
    cws_for_question 0 0 > cws_for_question 1 0 ∧
    cws_for_question p 1 > cws_for_question q 0 := by
  refine ⟨fun r y => rfl, by norm_num [cws_for_question],
    by norm_num [cws_for_question], by norm_num [cws_for_question],
    by norm_num [cws_for_question], by norm_num [cws_for_question],
    by norm_num [cws_for_question], by norm_num [cws_for_question], ?_⟩
  unfold cws_for_question
  simp only
  linarith

/-- Witness for `cws_ordering` at `p = 1/2`, `q = 1/3`. -/
theorem cws_ordering_witness :
    (∀ r y : ℚ, cws_for_question r y =
      y * (6/10 + 4/10 * r) + (1 - y) * (4/10 - 4/10 * r)) ∧
    cws_for_question 1 1 = 1 ∧ cws_for_question 0 1 = 6/10 ∧
    cws_for_question 0 0 = 4/10 ∧ cws_for_question 1 0 = 0 ∧
    cws_for_question 1 1 > cws_for_question 0 1 ∧
    cws_for_question 0 1 > cws_for_question 0 0 ∧
    cws_for_question 0 0 > cws_for_question 1 0 ∧
    cws_for_question (1/2) 1 > cws_for_question (1/3) 0 :=
  cws_ordering (1/2) (1/3) (by norm_num) (by norm_num) (by norm_num)
    (by norm_num)

/-- C10: nothing validates that correctness lies in {0,1}: a score cell of 2
survives `tidy_columns` as `correct_1 = 2`, the ABS/CWS formulas are applied
to it unchanged (CWS gives 2, ABS gives 1 at full confidence), and
`add_summary_scores` then reports an accuracy of 2 > 1. -/
theorem out_of_range_score_flows_through :
    tidy_columns c10raw 1 = Except.ok ([], c10tidy) ∧
    (add_question_scores c10tidy 1 true true).getCol "p_1" =
      some [Cell.num 1] ∧
    (add_question_scores c10tidy 1 true true).getCol "cws_1" =
      some [Cell.num 2] ∧
    cws_for_question 1 2 = 2 ∧
    (add_question_scores c10tidy 1 true true).getCol "abs_1" =
      some [Cell.num 1] ∧
    abs_for_question 1 2 = 1 ∧
    (add_summary_scores (add_question_scores c10tidy 1 true true) 1
      true true).getCol "accuracy" = some [Cell.num 2] ∧
    (2 : ℚ) > 1 := by
  have hp : "p_" ++ toString 1 = "p_1" := rfl
  have ha : "abs_" ++ toString 1 = "abs_1" := rfl
  have hc : "cws_" ++ toString 1 = "cws_1" := rfl
  have hcor : "correct_" ++ toString 1 = "correct_1" := rfl
  have hcnf : "conf_" ++ toString 1 = "conf_1" := rfl
  refine ⟨rfl, ?_, ?_, by norm_num [cws_for_question], ?_,
    by norm_num [abs_for_question], ?_, by norm_num⟩ <;>
    · simp [add_question_scores, add_summary_scores, questionStep,
        List.range', List.range, List.range.loop, hp, ha, hc, hcor, hcnf,
        seriesMap1, seriesMap2, rowSums, rowMeans, rowCells,
        sumSkip, meanSkip, divCellNat, Frame.col, Frame.getCol, Frame.setCol,
        Frame.nrows, getColAux, setColAux, Cell.toNum, c10tidy,
        confidence_to_prob, cws_for_question, abs_for_question]
      try norm_num

/-- C2: with only one CG observation, `independent_t` still returns its
normally-structured result; `t`, `p` and Cohen's d are silent NaNs
(modelled `none`) rather than an explicit error, for every tail-probability
function `sf`. -/
theorem independent_t_small_group_silent_nan (sf : ℝ → ℚ → ℝ) :
    (independent_t sf c2frame "total_cws" "group" "CG" "EG").t = none ∧
    (independent_t sf c2frame "total_cws" "group" "CG" "EG").p = none ∧
    (independent_t sf c2frame "total_cws" "group" "CG" "EG").cohens_d =
      none ∧
    (independent_t sf c2frame "total_cws" "group" "CG" "EG").n1 = 1 ∧
    (independent_t sf c2frame "total_cws" "group" "CG" "EG").n2 = 2 ∧
    (independent_t sf c2frame "total_cws" "group" "CG" "EG").mean1 =
      some 5 ∧
    (independent_t sf c2frame "total_cws" "group" "CG" "EG").mean2 =
      some (7/2) ∧
    (independent_t sf c2frame "total_cws" "group" "CG" "EG").group1 =
      "CG" ∧
    (independent_t sf c2frame "total_cws" "group" "CG" "EG").group2 =
      "EG" := by
  have h1 : groupValues c2frame "total_cws" "group" (Cell.str "CG") =
      [5] := rfl
  have h2 : groupValues c2frame "total_cws" "group" (Cell.str "EG") =
      [3, 4] := rfl
  refine ⟨rfl, rfl, rfl, rfl, rfl, ?_, ?_, rfl, rfl⟩
  · show meanQ (groupValues c2frame "total_cws" "group" (Cell.str "CG")) =
      some 5
    rw [h1]; norm_num [meanQ]
  · show meanQ (groupValues c2frame "total_cws" "group" (Cell.str "EG")) =
      some (7/2)
    rw [h2]; norm_num [meanQ]

/-! ### C6 / C7 -/

/-- The `correct_i` column names. -/
def correctNames (n : ℕ) : List String :=
  (List.range' 1 n).map (fun i => "correct_" ++ toString i)

theorem add_summary_total_correct (df : Frame) (n : ℕ) (ua uc : Bool) :
    (add_summary_scores df n ua uc).getCol "total_correct" =
      some (rowSums df (correctNames n)) := by
  unfold add_summary_scores correctNames
  cases ua <;> cases uc <;>
    simp [Frame.getCol_setCol_same, Frame.getCol_setCol_other]

theorem add_summary_accuracy (df : Frame) (n : ℕ) (ua uc : Bool) :
    (add_summary_scores df n ua uc).getCol "accuracy" =
      some ((rowSums df (correctNames n)).map (divCellNat n)) := by
  unfold add_summary_scores correctNames
  cases ua <;> cases uc <;>
    simp [Frame.getCol_setCol_same, Frame.getCol_setCol_other,
      Frame.col_setCol_same]

/-- C6: per row, `total_correct` is the missing-skipping sum of the
`correct_i` and `accuracy` is `total_correct / n` (for every frame and
configuration); concretely, a row with every `correct_i` missing gets
`total_correct = 0`, `accuracy = 0`, and an undefined (missing)
`mean_conf`, while a row with all twenty `correct_i = 1` gets
`total_correct = 20` and `accuracy = 1`. -/
theorem add_summary_scores_row_semantics :
    (∀ (df : Frame) (n : ℕ) (ua uc : Bool),
      (add_summary_scores df n ua uc).getCol "total_correct" =
        some (rowSums df (correctNames n)) ∧
      (add_summary_scores df n ua uc).getCol "accuracy" =
        some ((rowSums df (correctNames n)).map (divCellNat n))) ∧
    (add_summary_scores c6missing 20 false false).getCol "total_correct" =
      some [Cell.num 0] ∧
    (add_summary_scores c6missing 20 false false).getCol "accuracy" =
      some [Cell.num 0] ∧
    (add_summary_scores c6missing 20 false false).getCol "mean_conf" =
      some [Cell.missing] ∧
    (add_summary_scores c6ones 20 false false).getCol "total_correct" =
      some [Cell.num 20] ∧
    (add_summary_scores c6ones 20 false false).getCol "accuracy" =
      some [Cell.num 1] := by
  have hones : rowCells ((correctNames 20).map c6ones.col) 0 =
      [Cell.num 1, Cell.num 1, Cell.num 1, Cell.num 1, Cell.num 1,
       Cell.num 1, Cell.num 1, Cell.num 1, Cell.num 1, Cell.num 1,
       Cell.num 1, Cell.num 1, Cell.num 1, Cell.num 1, Cell.num 1,
       Cell.num 1, Cell.num 1, Cell.num 1, Cell.num 1, Cell.num 1] := rfl
  have hsum : sumSkip (rowCells ((correctNames 20).map c6ones.col) 0) =
      20 := by
    rw [hones]
    simp [sumSkip, Cell.toNum, List.filterMap_cons]
    norm_num
  have hrowones : rowSums c6ones (correctNames 20) = [Cell.num 20] := by
    have : rowSums c6ones (correctNames 20) =
        [Cell.num (sumSkip (rowCells ((correctNames 20).map c6ones.col) 0))] :=
      rfl
    rw [this, hsum]
  refine ⟨fun df n ua uc =>
      ⟨add_summary_total_correct df n ua uc,
        add_summary_accuracy df n ua uc⟩,
    ?_, ?_, rfl, ?_, ?_⟩
  · rw [add_summary_total_correct]
    rfl
  · rw [add_summary_accuracy]
    have : (rowSums c6missing (correctNames 20)).map (divCellNat 20) =
        [Cell.num (0 / ((20 : ℕ) : ℚ))] := rfl
    rw [this]
    norm_num
  · rw [add_summary_total_correct, hrowones]
  · rw [add_summary_accuracy, hrowones]
    norm_num [divCellNat, Cell.toNum]

/-- Frame with three groups: `A` has one observation, `B` has two, `C` has
only a missing value. -/
def c7frame : Frame :=
  ⟨[("group", [Cell.str "A", Cell.str "B", Cell.str "B", Cell.str "C"]),
    ("dv", [Cell.num 5, Cell.num 4, Cell.num 6, Cell.missing])]⟩

/-- C7: `group_descriptives` reports, per group, the count of non-missing
DV values, their mean, the Bessel-corrected sample deviation and
`se = sd / sqrt n`: the singleton group `[5]` gets `n = 1`, mean 5 and
undefined (NaN) sd and se; the group `[4,6]` gets mean 5, `sd = √2` and
`se = 1`; an all-missing group gets `n = 0`, undefined mean and an
undefined se — a non-numeric sentinel, not zero. -/
theorem group_descriptives_spec :
    group_descriptives c7frame "dv" "group" =
      [{ group := Cell.str "A", n := 1, mean := some 5, var := none },
       { group := Cell.str "B", n := 2, mean := some 5, var := some 2 },
       { group := Cell.str "C", n := 0, mean := none, var := none }] ∧
    GDRow.sd { group := Cell.str "A", n := 1, mean := some 5, var := none } =
      none ∧
    GDRow.se { group := Cell.str "A", n := 1, mean := some 5, var := none } =
      none ∧
    GDRow.sd { group := Cell.str "B", n := 2, mean := some 5, var := some 2 } =
      some (Real.sqrt 2) ∧
    GDRow.se { group := Cell.str "B", n := 2, mean := some 5, var := some 2 } =
      some 1 ∧
    GDRow.se { group := Cell.str "C", n := 0, mean := none, var := none } =
      none ∧
    GDRow.se { group := Cell.str "C", n := 0, mean := none, var := none } ≠
      some 0 := by
  have hA : groupValues c7frame "dv" "group" (Cell.str "A") = [5] := rfl
  have hB : groupValues c7frame "dv" "group" (Cell.str "B") = [4, 6] := rfl
  have hC : groupValues c7frame "dv" "group" (Cell.str "C") = [] := rfl
  have hkeys : dedupCells (c7frame.col "group") =
      [Cell.str "A", Cell.str "B", Cell.str "C"] := rfl
  refine ⟨?_, rfl, rfl, ?_, ?_, rfl, by simp [GDRow.se]⟩
  · unfold group_descriptives
    rw [hkeys]
    simp only [List.map_cons, List.map_nil, hA, hB, hC]
    norm_num [descRow, meanQ, varSample]
  · norm_num [GDRow.sd]
  · norm_num [GDRow.se, GDRow.sd]

/-! ### C9 -/

/-- Tidy-shaped frame that already carries a `p_1` column. -/
def c9frame : Frame :=
  ⟨[("correct_1", [Cell.num 1]), ("conf_1", [Cell.num 7]),
    ("p_1", [Cell.num 99])]⟩

/-- C9 counterexample: fed a table that already has a `p_1` column,
`add_question_scores` overwrites it (99 becomes 1), so not every input
column survives with its cell values unchanged. -/
theorem add_question_scores_overwrites_p :
    (add_question_scores c9frame 1 true true).getCol "p_1" ≠
      c9frame.getCol "p_1" ∧
    c9frame.getCol "p_1" = some [Cell.num 99] ∧
    (add_question_scores c9frame 1 true true).getCol "p_1" =
      some [Cell.num 1] := by
  have h : (add_question_scores c9frame 1 true true).getCol "p_1" =
      some [Cell.num (confidence_to_prob 7)] := rfl
  have h7 : confidence_to_prob 7 = 1 := by norm_num [confidence_to_prob]
  refine ⟨?_, rfl, by rw [h, h7]⟩
  rw [h, h7, show c9frame.getCol "p_1" = some [Cell.num 99] from rfl]
  intro hcon
  norm_num at hcon

/-- C9 (amended): as long as none of the derived column names (`p_i`,
`abs_i`, `cws_i` for `i ≤ n`, and the five summary columns) already occurs
in the input, `add_question_scores` and `add_summary_scores` leave every
input column in place with every cell value unchanged (the statistics
routines are pure functions of their input by construction). -/
theorem scoring_preserves_fresh_columns (df : Frame) (n : ℕ) (ua uc : Bool)
    (nm : String)
    (hq : ∀ i, 1 ≤ i → i ≤ n → nm ≠ "p_" ++ toString i ∧
      nm ≠ "abs_" ++ toString i ∧ nm ≠ "cws_" ++ toString i)
    (hs : nm ≠ "total_correct" ∧ nm ≠ "accuracy" ∧ nm ≠ "mean_conf" ∧
      nm ≠ "total_abs" ∧ nm ≠ "total_cws") :
    (add_question_scores df n ua uc).getCol nm = df.getCol nm ∧
    (add_summary_scores df n ua uc).getCol nm = df.getCol nm ∧
    (add_summary_scores (add_question_scores df n ua uc) n ua uc).getCol nm =
      df.getCol nm :=
  ⟨getCol_add_question_scores df n ua uc hq,
   getCol_add_summary_scores df n ua uc hs.1 hs.2.1 hs.2.2.1 hs.2.2.2.1
     hs.2.2.2.2,
   by
     rw [getCol_add_summary_scores _ n ua uc hs.1 hs.2.1 hs.2.2.1
       hs.2.2.2.1 hs.2.2.2.2,
       getCol_add_question_scores df n ua uc hq]⟩

/-- Witness for `scoring_preserves_fresh_columns`: the `correct_1` column of
`c9frame` is untouched by both scoring passes. -/
theorem scoring_preserves_fresh_columns_witness :
    (add_question_scores c9frame 1 true true).getCol "correct_1" =
      c9frame.getCol "correct_1" ∧
    (add_summary_scores c9frame 1 true true).getCol "correct_1" =
      c9frame.getCol "correct_1" ∧
    (add_summary_scores (add_question_scores c9frame 1 true true) 1 true
      true).getCol "correct_1" = c9frame.getCol "correct_1" :=
  scoring_preserves_fresh_columns c9frame 1 true true "correct_1"
    (fun i hi1 hi2 => by
      have : i = 1 := by omega
      subst this
      exact ⟨by decide, by decide, by decide⟩)
    ⟨by decide, by decide, by decide, by decide, by decide⟩

/-! ### C8 -/

theorem varSample_isSome {xs : List ℚ} (h : 2 ≤ xs.length) :
    ∃ v, varSample xs = some v := by
  unfold varSample
  rw [if_neg (by omega)]
  exact ⟨_, rfl⟩

theorem welchDF_swap (v1 : ℚ) (n1 : ℕ) (v2 : ℚ) (n2 : ℕ) :
    welchDF v2 n2 v1 n1 = welchDF v1 n1 v2 n2 := by
  unfold welchDF
  ring

/-- C8: whenever both groups have at least two non-missing observations,
swapping the two group labels negates `t` and Cohen's d, leaves the
two-tailed `p` unchanged, and swaps the reported means and sample sizes. -/
theorem independent_t_swap (sf : ℝ → ℚ → ℝ) (df : Frame)
    (dv group_col g1 g2 : String)
    (h1 : 2 ≤ (groupValues df dv group_col (Cell.str g1)).length)
    (h2 : 2 ≤ (groupValues df dv group_col (Cell.str g2)).length) :
    (independent_t sf df dv group_col g2 g1).t =
      (independent_t sf df dv group_col g1 g2).t.map (fun x => -x) ∧
    (independent_t sf df dv group_col g2 g1).cohens_d =
      (independent_t sf df dv group_col g1 g2).cohens_d.map (fun x => -x) ∧
    (independent_t sf df dv group_col g2 g1).p =
      (independent_t sf df dv group_col g1 g2).p ∧
    (independent_t sf df dv group_col g2 g1).mean1 =
      (independent_t sf df dv group_col g1 g2).mean2 ∧
    (independent_t sf df dv group_col g2 g1).mean2 =
      (independent_t sf df dv group_col g1 g2).mean1 ∧
    (independent_t sf df dv group_col g2 g1).n1 =
      (independent_t sf df dv group_col g1 g2).n2 ∧
    (independent_t sf df dv group_col g2 g1).n2 =
      (independent_t sf df dv group_col g1 g2).n1 := by
  obtain ⟨v1, hv1⟩ := varSample_isSome h1
  obtain ⟨v2, hv2⟩ := varSample_isSome h2
  simp only [independent_t, hv1, hv2]
  set s1 := (groupValues df dv group_col (Cell.str g1)).sum with hs1def
  set s2 := (groupValues df dv group_col (Cell.str g2)).sum with hs2def
  set n1 := (groupValues df dv group_col (Cell.str g1)).length with hn1def
  set n2 := (groupValues df dv group_col (Cell.str g2)).length with hn2def
  have hcomm : v2 / (n2 : ℚ) + v1 / (n1 : ℚ) =
      v1 / (n1 : ℚ) + v2 / (n2 : ℚ) := add_comm _ _
  have hpool : (((n2 : ℚ) - 1) * v2 + ((n1 : ℚ) - 1) * v1) /
        ((n2 : ℚ) + (n1 : ℚ) - 2) =
      (((n1 : ℚ) - 1) * v1 + ((n2 : ℚ) - 1) * v2) /
        ((n1 : ℚ) + (n2 : ℚ) - 2) := by ring
  refine ⟨?_, ?_, ?_, trivial, trivial, trivial, trivial⟩
  · rw [hcomm]
    split_ifs with hd
    · rw [Option.map_some']
      rw [show ((s2 / (n2 : ℚ) - s1 / (n1 : ℚ) : ℚ) : ℝ) /
            Real.sqrt ((v1 / (n1 : ℚ) + v2 / (n2 : ℚ) : ℚ) : ℝ) =
          -(((s1 / (n1 : ℚ) - s2 / (n2 : ℚ) : ℚ) : ℝ) /
            Real.sqrt ((v1 / (n1 : ℚ) + v2 / (n2 : ℚ) : ℚ) : ℝ)) from by
        push_cast
        ring]
    · rfl
  · rw [hpool]
    split_ifs with hd
    · rw [Option.map_some']
      rw [show ((s2 / (n2 : ℚ) - s1 / (n1 : ℚ) : ℚ) : ℝ) /
            Real.sqrt (((((n1 : ℚ) - 1) * v1 + ((n2 : ℚ) - 1) * v2) /
              ((n1 : ℚ) + (n2 : ℚ) - 2) : ℚ) : ℝ) =
          -(((s1 / (n1 : ℚ) - s2 / (n2 : ℚ) : ℚ) : ℝ) /
            Real.sqrt (((((n1 : ℚ) - 1) * v1 + ((n2 : ℚ) - 1) * v2) /
              ((n1 : ℚ) + (n2 : ℚ) - 2) : ℚ) : ℝ)) from by
        push_cast
        ring]
    · rfl
  · rw [hcomm, welchDF_swap v1 n1 v2 n2]
    split_ifs with hd
    · rw [Option.map_some']
      rw [show ((s2 / (n2 : ℚ) - s1 / (n1 : ℚ) : ℚ) : ℝ) /
            Real.sqrt ((v1 / (n1 : ℚ) + v2 / (n2 : ℚ) : ℚ) : ℝ) =
          -(((s1 / (n1 : ℚ) - s2 / (n2 : ℚ) : ℚ) : ℝ) /
            Real.sqrt ((v1 / (n1 : ℚ) + v2 / (n2 : ℚ) : ℚ) : ℝ)) from by
        push_cast
        ring, abs_neg, Option.map_some']
    · rfl

/-- Frame with two observations in each group. -/
def c8frame : Frame :=
  ⟨[("group", [Cell.str "CG", Cell.str "CG", Cell.str "EG", Cell.str "EG"]),
    ("dv", [Cell.num 1, Cell.num 3, Cell.num 2, Cell.num 6])]⟩

/-- Witness for `independent_t_swap` on `c8frame` (CG = [1,3], EG = [2,6]). -/
theorem independent_t_swap_witness :
    (independent_t (fun _ _ => (0:ℝ)) c8frame "dv" "group" "EG" "CG").t =
      (independent_t (fun _ _ => (0:ℝ)) c8frame "dv" "group" "CG"
        "EG").t.map (fun x => -x) ∧
    (independent_t (fun _ _ => (0:ℝ)) c8frame "dv" "group" "EG"
        "CG").cohens_d =
      (independent_t (fun _ _ => (0:ℝ)) c8frame "dv" "group" "CG"
        "EG").cohens_d.map (fun x => -x) ∧
    (independent_t (fun _ _ => (0:ℝ)) c8frame "dv" "group" "EG" "CG").p =
      (independent_t (fun _ _ => (0:ℝ)) c8frame "dv" "group" "CG" "EG").p ∧
    (independent_t (fun _ _ => (0:ℝ)) c8frame "dv" "group" "EG"
        "CG").mean1 =
      (independent_t (fun _ _ => (0:ℝ)) c8frame "dv" "group" "CG"
        "EG").mean2 ∧
    (independent_t (fun _ _ => (0:ℝ)) c8frame "dv" "group" "EG"
        "CG").mean2 =
      (independent_t (fun _ _ => (0:ℝ)) c8frame "dv" "group" "CG"
        "EG").mean1 ∧
    (independent_t (fun _ _ => (0:ℝ)) c8frame "dv" "group" "EG" "CG").n1 =
      (independent_t (fun _ _ => (0:ℝ)) c8frame "dv" "group" "CG"
        "EG").n2 ∧
    (independent_t (fun _ _ => (0:ℝ)) c8frame "dv" "group" "EG" "CG").n2 =
      (independent_t (fun _ _ => (0:ℝ)) c8frame "dv" "group" "CG"
        "EG").n1 :=
  independent_t_swap (fun _ _ => (0:ℝ)) c8frame "dv" "group" "CG" "EG"
    (by decide) (by decide)

/-! ### C3 / C1: what tidy_columns actually returns -/

theorem selectColsAux_names (f : Frame) :
    ∀ (names : List String) (cs : List (String × List Cell)),
      selectColsAux f names = some cs → cs.map Prod.fst = names
  | [], cs, h => by
      simp only [selectColsAux, Option.some.injEq] at h
      subst h
      rfl
  | nm :: rest, cs, h => by
      simp only [selectColsAux] at h
      cases hg : f.getCol nm with
      | none => rw [hg] at h; exact absurd h (by simp)
      | some v =>
          cases hr : selectColsAux f rest with
          | none => rw [hg, hr] at h; exact absurd h (by simp)
          | some cs' =>
              rw [hg, hr] at h
              injection h with h
              subst h
              simp [selectColsAux_names f rest cs' hr]

theorem selectColsAux_isSome (f : Frame) :
    ∀ (names : List String), (∀ nm ∈ names, (f.getCol nm).isSome) →
      ∃ cs, selectColsAux f names = some cs
  | [], _ => ⟨[], rfl⟩
  | nm :: rest, h => by
      obtain ⟨v, hv⟩ :=
        Option.isSome_iff_exists.mp (h nm (List.mem_cons_self nm rest))
      obtain ⟨cs, hcs⟩ := selectColsAux_isSome f rest
        (fun x hx => h x (List.mem_cons_of_mem _ hx))
      exact ⟨(nm, v) :: cs, by simp [selectColsAux, hv, hcs]⟩

theorem getColAux_isSome_iff (nm : String) :
    ∀ l : List (String × List Cell),
      (getColAux nm l).isSome ↔ nm ∈ l.map Prod.fst
  | [] => by simp [getColAux]
  | (k, v) :: rest => by
      by_cases h : k = nm
      · subst h
        simp [getColAux]
      · simp only [getColAux, if_neg h, List.map_cons, List.mem_cons,
          getColAux_isSome_iff nm rest]
        exact ⟨fun hr => Or.inr hr,
          fun hor => hor.elim (fun he => absurd he.symm h) id⟩

/-- Every question index covered by the zipped pairs gets both its
`correct_i` and its `conf_i` entry in the built data. -/
theorem pairData_keys (dff : Frame) :
    ∀ (ps : List (String × String)) (i0 i : ℕ),
      i0 ≤ i → i < i0 + ps.length →
      ("correct_" ++ toString i) ∈ (pairData dff ps i0).map Prod.fst ∧
      ("conf_" ++ toString i) ∈ (pairData dff ps i0).map Prod.fst
  | [], i0, i, hle, hlt => by
      simp only [List.length_nil, Nat.add_zero] at hlt
      omega
  | (sc, cc) :: rest, i0, i, hle, hlt => by
      simp only [pairData, List.map_cons]
      rcases eq_or_lt_of_le hle with he | hlt2
      · subst he
        exact ⟨List.mem_cons_self _ _,
          List.mem_cons_of_mem _ (List.mem_cons_self _ _)⟩
      · have hrec := pairData_keys dff rest (i0 + 1) i hlt2
          (by simp only [List.length_cons] at hlt; omega)
        exact ⟨List.mem_cons_of_mem _ (List.mem_cons_of_mem _ hrec.1),
          List.mem_cons_of_mem _ (List.mem_cons_of_mem _ hrec.2)⟩

/-- Whenever `tidy_columns` succeeds, the returned frame has exactly the
tidy column order (`df[cols_order]` reindexes to it). -/
theorem tidy_ok_colNames {df : Frame} {n : ℕ} {w : List String} {tf : Frame}
    (h : tidy_columns df n = Except.ok (w, tf)) :
    tf.colNames = tidyOrder n := by
  simp only [tidy_columns] at h
  split at h
  · exact absurd h (by simp)
  · rename_i fc rest hsc
    split at h
    · rename_i clean hsel
      injection h with h
      injection h with hw htf
      subst htf
      unfold selectCols at hsel
      split at hsel
      · rename_i cs hcs
        injection hsel with hsel
        subst hsel
        exact selectColsAux_names _ _ _ hcs
      · exact absurd hsel (by simp)
    · exact absurd h (by simp)

/-- The full column order the pipeline actually produces: the per-question
derived columns are interleaved `p_i, abs_i, cws_i` in loop order. -/
def processedOrder (n : ℕ) : List String :=
  tidyOrder n ++
  ((List.range' 1 n).map (fun i =>
    ["p_" ++ toString i, "abs_" ++ toString i, "cws_" ++ toString i])).flatten ++
  ["total_correct", "accuracy", "mean_conf", "total_abs", "total_cws"]

/-- The column order §6 of the spec claims for the persisted table: each
derived family grouped together (all `p`, then all `abs`, then all `cws`). -/
def specProcessedOrder (n : ℕ) : List String :=
  tidyOrder n ++
  (List.range' 1 n).map (fun i => "p_" ++ toString i) ++
  (List.range' 1 n).map (fun i => "abs_" ++ toString i) ++
  (List.range' 1 n).map (fun i => "cws_" ++ toString i) ++
  ["total_correct", "accuracy", "mean_conf", "total_abs", "total_cws"]

/-- Raw two-marker input with exactly `n` score and `n` confidence columns
and one participant row. -/
def rawBlank (n : ℕ) : Frame :=
  ⟨(List.range' 1 n).map
      (fun i => ("Q" ++ toString i ++ " [Score]", [Cell.num 1])) ++
    (List.range' 1 n).map
      (fun i => ("How confident " ++ toString i, [Cell.num 4])) ++
    [("group", [Cell.str "CG"])]⟩

/-- The tidy frame `tidy_columns` produces from `rawBlank 20`. -/
def tidyBlank20 : Frame :=
  ⟨[("participant", [Cell.num 1]), ("group", [Cell.str "CG"])] ++
    (List.range' 1 20).map
      (fun i => ("correct_" ++ toString i, [Cell.num 1])) ++
    (List.range' 1 20).map
      (fun i => ("conf_" ++ toString i, [Cell.num 4]))⟩

/-- C3 counterexample: on a well-formed 20-question input the scored table's
column list is not the spec's family-grouped order (`p_1..20` then
`abs_1..20` then `cws_1..20`): the derived columns are interleaved per
question instead. -/
theorem processed_order_not_grouped :
    tidy_columns (rawBlank 20) 20 = Except.ok ([], tidyBlank20) ∧
    (add_summary_scores (add_question_scores tidyBlank20 20 true true) 20
      true true).colNames ≠ specProcessedOrder 20 := by
  constructor
  · rfl
  · rw [colNames_add_summary_scores, colNames_add_question_scores]
    decide

/-- C3 (amended): for every raw input on which `tidy_columns` succeeds with
the default 20 questions, the table persisted by the full pipeline has
columns `participant, group, correct_1..20, conf_1..20`, then the triples
`p_i, abs_i, cws_i` interleaved per question, then the five summary
columns. -/
theorem processed_order_interleaved (raw : Frame) (w : List String)
    (tf : Frame) (h : tidy_columns raw 20 = Except.ok (w, tf)) :
    (add_summary_scores (add_question_scores tf 20 true true) 20 true
      true).colNames = processedOrder 20 := by
  rw [colNames_add_summary_scores, colNames_add_question_scores,
    tidy_ok_colNames h]
  decide

/-- Witness for `processed_order_interleaved` on `rawBlank 20`. -/
theorem processed_order_interleaved_witness :
    (add_summary_scores (add_question_scores tidyBlank20 20 true true) 20
      true true).colNames = processedOrder 20 :=
  processed_order_interleaved (rawBlank 20) [] tidyBlank20 rfl

/-! ### C1 -/

/-- Raw input with one score and one confidence column. -/
def c1raw : Frame :=
  ⟨[("Q1 [Score]", [Cell.num 1]),
    ("How confident 1", [Cell.num 4]),
    ("group", [Cell.str "CG"])]⟩

/-- C1 counterexample: with one discovered score column and one confidence
column but `n_questions = 2` the discovered counts differ from the expected
`N`, yet `tidy_columns` does not return a tidy table: after the warnings the
final reindex to `correct_1..2, conf_1..2` raises `KeyError` and aborts. -/
theorem tidy_columns_short_columns_raise :
    (c1raw.colNames.filter (fun c => strEndsWith c "[Score]")).length = 1 ∧
    (1 : ℕ) ≠ 2 ∧
    tidy_columns c1raw 2 = Except.error "KeyError: columns not in index" :=
  ⟨rfl, by decide, rfl⟩

/-- C1 (amended): when the discovered counts differ from `n_questions` but
both are at least `n_questions` (and `n_questions ≥ 1`), `tidy_columns`
emits its non-fatal warnings and still returns the tidy table, pairing
score and confidence columns positionally (the first `n_questions` zipped
pairs); when either count falls below `n_questions` the function instead
raises (see the counterexample). -/
theorem tidy_columns_mismatch_warns (df : Frame) (n : ℕ) (hn : 1 ≤ n)
    (hs : n ≤ (df.colNames.filter (fun c => strEndsWith c "[Score]")).length)
    (hc : n ≤ (df.colNames.filter
      (fun c => strStartsWith c "How confident")).length)
    (hne : (df.colNames.filter
        (fun c => strEndsWith c "[Score]")).length ≠ n ∨
      (df.colNames.filter
        (fun c => strStartsWith c "How confident")).length ≠ n) :
    ∃ w tf, tidy_columns df n = Except.ok (w, tf) ∧ w ≠ [] ∧
      tf.colNames = tidyOrder n := by
  cases hsc : df.colNames.filter (fun c => strEndsWith c "[Score]") with
  | nil =>
      rw [hsc] at hs
      simp only [List.length_nil] at hs
      omega
  | cons fc rest =>
      rw [hsc] at hs hne
      set confl := df.colNames.filter
        (fun c => strStartsWith c "How confident") with hconfdef
      set dff := df.filterRows ((df.col fc).map (fun c => c.toNum.isSome))
        with hdffdef
      set data : Frame := ⟨("participant", participantCol dff) ::
        ("group", dff.col "group") ::
        pairData dff ((fc :: rest).zip confl) 1⟩ with hdatadef
      have hplen : n ≤ ((fc :: rest).zip confl).length := by
        rw [List.length_zip]
        omega
      have hmem : ∀ nm ∈ tidyOrder n, (data.getCol nm).isSome := by
        intro nm hnm
        unfold tidyOrder at hnm
        simp only [List.cons_append, List.nil_append, List.mem_cons,
          List.mem_append, List.mem_map, List.mem_range'_1] at hnm
        rcases hnm with h1 | h2 | ⟨i, ⟨hi1, hi2⟩, hnm⟩ | ⟨i, ⟨hi1, hi2⟩, hnm⟩
        · subst h1
          simp [hdatadef, Frame.getCol, getColAux]
        · subst h2
          simp [hdatadef, Frame.getCol, getColAux]
        · subst hnm
          rw [Frame.getCol, getColAux_isSome_iff]
          simp only [hdatadef, List.map_cons, List.mem_cons]
          right; right
          exact (pairData_keys dff _ 1 i hi1 (by omega)).1
        · subst hnm
          rw [Frame.getCol, getColAux_isSome_iff]
          simp only [hdatadef, List.map_cons, List.mem_cons]
          right; right
          exact (pairData_keys dff _ 1 i hi1 (by omega)).2
      obtain ⟨cs, hcs⟩ := selectColsAux_isSome data (tidyOrder n) hmem
      refine ⟨(if (fc :: rest).length ≠ n then
          ["WARNING: unexpected number of score columns"] else []) ++
        (if confl.length ≠ n then
          ["WARNING: unexpected number of confidence columns"] else []),
        ⟨cs⟩, ?_, ?_, ?_⟩
      · simp only [tidy_columns, hsc]
        rw [← hconfdef, ← hdffdef, ← hdatadef]
        unfold selectCols
        rw [hcs]
      · intro hcontra
        rw [List.append_eq_nil] at hcontra
        rcases hne with hno | hno
        · rw [if_pos hno] at hcontra
          exact absurd hcontra.1 (by simp)
        · rw [if_pos hno] at hcontra
          exact absurd hcontra.2 (by simp)
      · exact selectColsAux_names data (tidyOrder n) cs hcs

/-- Raw input with three score and three confidence columns. -/
def c1excess : Frame :=
  ⟨[("Q1 [Score]", [Cell.num 1]), ("Q2 [Score]", [Cell.num 0]),
    ("Q3 [Score]", [Cell.num 1]),
    ("How confident 1", [Cell.num 4]), ("How confident 2", [Cell.num 5]),
    ("How confident 3", [Cell.num 6]),
    ("group", [Cell.str "CG"])]⟩

/-- Witness for `tidy_columns_mismatch_warns`: three score/confidence
columns against `n_questions = 2`. -/
theorem tidy_columns_mismatch_warns_witness :
    ∃ w tf, tidy_columns c1excess 2 = Except.ok (w, tf) ∧ w ≠ [] ∧
      tf.colNames = tidyOrder 2 :=
  tidy_columns_mismatch_warns c1excess 2 (by decide) (by decide) (by decide)
    (Or.inl (by decide))

end IntroPsych
